import Mathlib

/-!
Shallow embedding of the rm-sync core (src/rm.rs, src/rm/disk.rs,
src/remarkable/mod.rs, src/remarkable/disk.rs).

Modelling choices:
* `Uuid` is modelled as `Nat` (an opaque identifier type with decidable
  equality; `Uuid::from_str` is modelled by `String.toNat?`).
* A virtual path (`std::path::Path`) is modelled as its list of `Normal`
  components, `List String`; `Path::parent` drops the last component and is
  `none` on the empty path.  Absolute paths are modelled after the
  `strip_prefix("/")` normalisation that `Remarkable::list` performs.
* The concurrent `DashMap<Uuid, Element>` is modelled as an association list
  `List (Uuid × Element)`; `insert` replaces the entry in place,
  `remove` drops it, `get` is `lookupElem`.  Iteration order is the list
  order.
* `Path::is_file` asks the operating system, not the index, so the
  filesystem state carries an oracle `isFile : List String → Bool`.
* Disk reads (`tokio::fs`) are modelled by a `Disk` record: `none` means
  the file is absent, `some none` means present but unparsable,
  `some (some v)` means present and parsed as `v`.
-/

/-- Model of `uuid::Uuid`: an opaque identifier with decidable equality. -/
abbrev Uuid := Nat

/-- `Format` from src/rm.rs (serde names: notebook, pdf, epub). -/
inductive Format where
  | Notebook
  | Pdf
  | Epub
deriving DecidableEq, Repr

/-- `Parent` from src/rm.rs: `""` is Root, `"trash"` is Trash, any other
identifier string is `Directory`. -/
inductive Parent where
  | Root
  | Trash
  | Directory (id : Uuid)
deriving DecidableEq, Repr

/-- `Document` from src/rm.rs. -/
structure Document where
  format : Format
deriving DecidableEq, Repr

/-- `ElementKind` from src/rm.rs. -/
inductive ElementKind where
  | Document (d : Document)
  | Directory
deriving DecidableEq, Repr

/-- `Element` from src/rm.rs: one indexed item. -/
structure Element where
  name : String
  parent : Parent
  pinned : Bool
  kind : ElementKind
deriving DecidableEq, Repr

/-- `Element::is_doc` from src/rm.rs. -/
def Element.is_doc (e : Element) : Bool :=
  match e.kind with
  | ElementKind.Document _ => true
  | ElementKind.Directory => false

/-- `Element::is_dir` from src/rm.rs. -/
def Element.is_dir (e : Element) : Bool :=
  match e.kind with
  | ElementKind.Document _ => false
  | ElementKind.Directory => true

/-- `TRASH_DIRECTORY` from src/rm.rs. -/
def TRASH_DIRECTORY : String := "Trash"

/-- `PINNED_DIRECTORY` from src/rm.rs. -/
def PINNED_DIRECTORY : String := "Favorites"

/-- `Path::parent`: drop the final component; `none` on the empty (root)
path. -/
def Path.parent (p : List String) : Option (List String) :=
  match p with
  | [] => none
  | _ :: _ => some p.dropLast

/-- `Path::ends_with(name)` where `name` is a single display name used as a
one-component path (an empty name has no components and is trivially a
suffix). -/
def pathEndsWith (p : List String) (name : String) : Bool :=
  if name = "" then true else decide (p.getLast? = some name)

/-- State of `Filesystem` (src/rm.rs) / `Remarkable` (src/remarkable/mod.rs):
the element index plus the operating-system oracle behind `Path::is_file`
(the `base` path plays no role in the index queries). -/
structure Filesystem where
  elements : List (Uuid × Element)
  isFile : List String → Bool

/-- `DashMap::get` on the association-list model: first entry with the key. -/
def lookupElem : List (Uuid × Element) → Uuid → Option Element
  | [], _ => none
  | p :: rest, u => if p.1 = u then some p.2 else lookupElem rest u

/-- `DashMap::insert` on the association-list model: replace the entry in
place, or append when the key is new. -/
def insertElem : List (Uuid × Element) → Uuid → Element → List (Uuid × Element)
  | [], u, e => [(u, e)]
  | p :: rest, u, e => if p.1 = u then (u, e) :: rest else p :: insertElem rest u e

/-- `DashMap::remove` on the association-list model. -/
def removeElem : List (Uuid × Element) → Uuid → List (Uuid × Element)
  | [], _ => []
  | p :: rest, u => if p.1 = u then removeElem rest u else p :: removeElem rest u

/-- `self.elements.get(&uuid)` in src/rm.rs. -/
def Filesystem.get (fs : Filesystem) (u : Uuid) : Option Element :=
  lookupElem fs.elements u

theorem Path.parent_length {p q : List String} (h : Path.parent p = some q) :
    q.length < p.length := by
  cases p with
  | nil => simp [Path.parent] at h
  | cons a t =>
    simp only [Path.parent, Option.some.injEq] at h
    subst h
    simp [List.length_dropLast]

/-- `Filesystem::path_matches` from src/rm.rs lines 129-148 (identical to
`Remarkable::path_matches`, src/remarkable/mod.rs lines 78-97).  The source
match has four arms; the `(Some(t), Parent::Trash)` arm carries the guard
`t == Path::new(TRASH_DIRECTORY)`, and a guard failure falls through to the
final `_ => true` arm, so it is rendered here as an `if` whose two branches
are the guarded arm's `true` and the fallback arm's `true`. -/
def Filesystem.path_matches (fs : Filesystem) (path : List String) (elem : Element) : Bool :=
  match hp : Path.parent path, elem.parent with
  | some parent, Parent.Directory uuid =>
    match fs.get uuid with
    | some v =>
      if v.is_dir && pathEndsWith parent v.name
      then fs.path_matches parent v
      else false
    | none => false
  | some t, Parent.Trash =>
    if t = [TRASH_DIRECTORY] then true
    else true
  | none, Parent.Root => true
  | _, _ => true
termination_by path.length
decreasing_by
  exact Path.parent_length hp

/-- `Filesystem::uuid_from_path` from src/rm.rs lines 97-126 (identical to
`Remarkable::uuid_from_path`, src/remarkable/mod.rs lines 46-75).
`components().next_back()` on a path of normal components is the last
component; `Vec::pop` takes the last collected candidate; `Iterator::find`
takes the first match. -/
def Filesystem.uuid_from_path (fs : Filesystem) (path : List String) :
    Option (Uuid × Element) :=
  match path.getLast? with
  | none => none
  | some name =>
    let candidates := fs.elements.filter (fun p => decide (p.2.name = name))
    if candidates.isEmpty then none
    else if candidates.length = 1 then candidates.getLast?
    else candidates.find? (fun p => fs.path_matches path p.2)

/-- `Filesystem::list` from src/rm.rs lines 45-95: root, trash and pinned
branches, then resolution through `uuid_from_path`. -/
def Filesystem.list (fs : Filesystem) (path : List String) : List Element :=
  if fs.isFile path = true then []
  else if (Path.parent path).isNone = true then
    (fs.elements.filter (fun p => decide (p.2.parent = Parent.Root))).map (·.2)
  else if path = [TRASH_DIRECTORY] then
    (fs.elements.filter (fun p => decide (p.2.parent = Parent.Trash))).map (·.2)
  else if path = [PINNED_DIRECTORY] then
    (fs.elements.filter (fun p => p.2.pinned)).map (·.2)
  else
    match fs.uuid_from_path path with
    | none => []
    | some (uuid, _) =>
      (fs.elements.filter (fun p => decide (p.2.parent = Parent.Directory uuid))).map (·.2)

/-- `Remarkable::list` from src/remarkable/mod.rs lines 230-264: no trash or
pinned branch; the leading `strip_prefix("/")` is absorbed by modelling
paths as component lists. -/
def Remarkable.list (fs : Filesystem) (path : List String) :
    Except String (List Element) :=
  if fs.isFile path = true then Except.error "list called on a file"
  else if (Path.parent path).isNone = true then
    Except.ok ((fs.elements.filter (fun p => decide (p.2.parent = Parent.Root))).map (·.2))
  else
    match fs.uuid_from_path path with
    | none => Except.error "no uuid found for directory"
    | some (uuid, _) =>
      Except.ok ((fs.elements.filter (fun p => decide (p.2.parent = Parent.Directory uuid))).map (·.2))

/-- `Remarkable::pinned` from src/remarkable/mod.rs lines 266-272. -/
def Remarkable.pinned (fs : Filesystem) : List Element :=
  (fs.elements.filter (fun p => p.2.pinned)).map (·.2)

/-- `Remarkable::trash` from src/remarkable/mod.rs lines 274-280. -/
def Remarkable.trash (fs : Filesystem) : List Element :=
  (fs.elements.filter (fun p => decide (p.2.parent = Parent.Trash))).map (·.2)

/-- `ElementType` from src/rm/disk.rs (serde names: DocumentType,
CollectionType). -/
inductive ElementType where
  | Document
  | Directory
deriving DecidableEq, Repr

/-- `Metadata` from src/rm/disk.rs: the parsed `<id>.metadata` sidecar. -/
structure Metadata where
  kind : ElementType
  name : String
  parent : Parent
  pinned : Bool
deriving DecidableEq, Repr

/-- `Content` from src/rm/disk.rs: the parsed `<id>.content` sidecar. -/
structure Content where
  format : Format
deriving DecidableEq, Repr

/-- A directory entry as far as `validate_path` inspects it: `file_stem` and
`extension` of the `PathBuf`. -/
structure DiskPath where
  stem : String
  ext : Option String
deriving DecidableEq, Repr

/-- `METADATA_EXTENSION` from src/rm/disk.rs. -/
def METADATA_EXTENSION : String := "metadata"

/-- `CONTENT_EXTENSION` from src/rm/disk.rs. -/
def CONTENT_EXTENSION : String := "content"

/-- `Metadata::validate_path` from src/rm/disk.rs: the identifier encoded in
the stem, provided the extension is the metadata extension
(`Uuid::from_str` is modelled by `String.toNat?`). -/
def Metadata.validate_path (p : DiskPath) : Option Uuid :=
  if p.ext = some METADATA_EXTENSION then p.stem.toNat? else none

/-- `Content::validate_path` from src/rm/disk.rs. -/
def Content.validate_path (p : DiskPath) : Option Uuid :=
  if p.ext = some CONTENT_EXTENSION then p.stem.toNat? else none

/-- The error taxonomy of the sidecar readers: a missing file
(`eyre!("... doesn't exist")`), or a `serde_json` failure. -/
inductive ReadError where
  | notFound
  | parseError
deriving DecidableEq, Repr

/-- The on-disk store as the reader functions observe it.  For each sidecar,
`none` models an absent file, `some none` a present but unparsable file, and
`some (some v)` a file parsing as `v`.  `dirEntries` is the result of
`base.read_dir()` (`none` when enumeration itself fails). -/
structure Disk where
  dirEntries : Option (List DiskPath)
  metadataFile : Uuid → Option (Option Metadata)
  contentFile : Uuid → Option (Option Content)

/-- `Metadata::from_disk` from src/rm/disk.rs lines 56-67: error when the
`.metadata` file is absent, error when it does not parse. -/
def Metadata.from_disk (d : Disk) (u : Uuid) : Except ReadError Metadata :=
  match d.metadataFile u with
  | none => Except.error ReadError.notFound
  | some none => Except.error ReadError.parseError
  | some (some m) => Except.ok m

/-- `Content::from_disk` from src/rm/disk.rs lines 88-99. -/
def Content.from_disk (d : Disk) (u : Uuid) : Except ReadError Content :=
  match d.contentFile u with
  | none => Except.error ReadError.notFound
  | some none => Except.error ReadError.parseError
  | some (some c) => Except.ok c

/-- `disk::read` from src/rm/disk.rs lines 17-34 (identical to
src/remarkable/disk.rs lines 18-35): read the metadata sidecar, and for a
Document also the content sidecar. -/
def disk.read (d : Disk) (u : Uuid) : Except ReadError Element :=
  match Metadata.from_disk d u with
  | Except.error err => Except.error err
  | Except.ok meta =>
    match meta.kind with
    | ElementType.Document =>
      match Content.from_disk d u with
      | Except.error err => Except.error err
      | Except.ok c =>
        Except.ok { name := meta.name, parent := meta.parent,
                    pinned := meta.pinned,
                    kind := ElementKind.Document { format := c.format } }
    | ElementType.Directory =>
      Except.ok { name := meta.name, parent := meta.parent,
                  pinned := meta.pinned, kind := ElementKind.Directory }

/-- The update half of the debounce flush in `Filesystem::auto_reindex`
(src/rm.rs lines 255-272) and of `Filesystem::index`: each identifier is
read from disk and inserted on success, skipped on failure. -/
def updatePhase (d : Disk) (l : List (Uuid × Element)) (tU : List Uuid) :
    List (Uuid × Element) :=
  tU.foldl (fun acc u =>
    match disk.read d u with
    | Except.ok e => insertElem acc u e
    | Except.error _ => acc) l

/-- The delete half of the debounce flush in `Filesystem::auto_reindex`
(src/rm.rs lines 246-253): every queued identifier is removed. -/
def deletePhase (l : List (Uuid × Element)) (tD : List Uuid) :
    List (Uuid × Element) :=
  tD.foldl removeElem l

/-- One iteration of the polling loop of `Filesystem::auto_reindex`
(src/rm.rs lines 243-274, identical to `Remarkable::auto_reindex`,
src/remarkable/mod.rs lines 201-228): first remove every identifier queued
in `toDelete`, then re-read every identifier queued in `toUpdate` and
insert the successes. -/
def Filesystem.auto_reindex_flush (fs : Filesystem) (d : Disk)
    (toDelete toUpdate : List Uuid) : Filesystem :=
  { fs with elements := updatePhase d (deletePhase fs.elements toDelete) toUpdate }

/-- `Filesystem::index` from src/rm.rs lines 150-188 (identical to
`Remarkable::index`, src/remarkable/mod.rs lines 111-146): if enumerating
the base directory fails, return with the index untouched; otherwise clear
the index and insert every entry whose path validates as a metadata
sidecar and whose disk read succeeds. -/
def Filesystem.index (fs : Filesystem) (d : Disk) : Filesystem :=
  match d.dirEntries with
  | none => fs
  | some entries =>
    { fs with elements := updatePhase d [] (entries.filterMap Metadata.validate_path) }

/-- Model of `serde_json::Value`. -/
inductive JVal where
  | str (s : String)
  | num (n : Int)
  | bool (b : Bool)
  | null
  | arr (xs : List JVal)
  | obj (fields : List (String × JVal))

/-- `serde_json::to_value(parent)` for the serde attributes on `Parent` in
src/remarkable/mod.rs: Root renames to the empty string, Trash to
"trash", and a Directory identifier serialises untagged as its string. -/
def Parent.toJson : Parent → JVal
  | Parent.Root => JVal.str ""
  | Parent.Trash => JVal.str "trash"
  | Parent.Directory u => JVal.str (toString u)

/-- The in-memory JSON edit inside `change_parent`
(src/remarkable/disk.rs lines 124-126): `get_mut("parent")` yields the
first entry with that key if any, and the assignment replaces its value in
place; when the key is absent nothing changes. -/
def setParentField : List (String × JVal) → JVal → List (String × JVal)
  | [], _ => []
  | f :: rest, p =>
    if f.1 = "parent" then ("parent", p) :: rest
    else f :: setParentField rest p

/-- `change_parent` from src/remarkable/disk.rs lines 117-131, restricted to
its value-level transformation of the parsed metadata object (the read,
re-serialisation and write are I/O around this edit). -/
def change_parent (metadataJson : List (String × JVal)) (parent : Parent) :
    List (String × JVal) :=
  setParentField metadataJson (Parent.toJson parent)

theorem lookup_insert_self (l : List (Uuid × Element)) (u : Uuid) (e : Element) :
    lookupElem (insertElem l u e) u = some e := by
  induction l with
  | nil => simp [insertElem, lookupElem]
  | cons p rest ih =>
    by_cases h : p.1 = u
    · simp [insertElem, h, lookupElem]
    · simp [insertElem, h, lookupElem, ih]

theorem lookup_insert_other (l : List (Uuid × Element)) (u v : Uuid) (e : Element)
    (h : v ≠ u) : lookupElem (insertElem l u e) v = lookupElem l v := by
  have h2 : ¬(u = v) := fun hh => h hh.symm
  induction l with
  | nil => simp [insertElem, lookupElem, h2]
  | cons p rest ih =>
    by_cases hp : p.1 = u
    · simp [insertElem, hp, lookupElem, h2]
    · simp [insertElem, hp, lookupElem, ih]

theorem lookup_remove_self (l : List (Uuid × Element)) (u : Uuid) :
    lookupElem (removeElem l u) u = none := by
  induction l with
  | nil => simp [removeElem, lookupElem]
  | cons p rest ih =>
    by_cases h : p.1 = u
    · simp [removeElem, h, ih]
    · simp [removeElem, h, lookupElem, ih]

theorem lookup_remove_other (l : List (Uuid × Element)) (u v : Uuid)
    (h : v ≠ u) : lookupElem (removeElem l u) v = lookupElem l v := by
  have h2 : ¬(u = v) := fun hh => h hh.symm
  induction l with
  | nil => simp [removeElem]
  | cons p rest ih =>
    by_cases hp : p.1 = u
    · simp [removeElem, hp, lookupElem, h2, ih]
    · simp [removeElem, hp, lookupElem, ih]

theorem deletePhase_cons (l : List (Uuid × Element)) (w : Uuid) (rest : List Uuid) :
    deletePhase l (w :: rest) = deletePhase (removeElem l w) rest := by
  simp [deletePhase, List.foldl_cons]

theorem deletePhase_lookup_none (tD : List Uuid) (l : List (Uuid × Element))
    (u : Uuid) (h : lookupElem l u = none) :
    lookupElem (deletePhase l tD) u = none := by
  induction tD generalizing l with
  | nil => simpa [deletePhase] using h
  | cons w rest ih =>
    rw [deletePhase_cons]
    apply ih
    by_cases hw : u = w
    · subst hw; exact lookup_remove_self l u
    · rw [lookup_remove_other l w u hw]; exact h

theorem deletePhase_lookup_mem (tD : List Uuid) (l : List (Uuid × Element))
    (u : Uuid) (h : u ∈ tD) : lookupElem (deletePhase l tD) u = none := by
  induction tD generalizing l with
  | nil => cases h
  | cons w rest ih =>
    rw [deletePhase_cons]
    by_cases hw : u = w
    · subst hw
      exact deletePhase_lookup_none rest (removeElem l u) u (lookup_remove_self l u)
    · exact ih (removeElem l w) ((List.mem_cons.mp h).resolve_left hw)

theorem deletePhase_lookup_not_mem (tD : List Uuid) (l : List (Uuid × Element))
    (u : Uuid) (h : u ∉ tD) :
    lookupElem (deletePhase l tD) u = lookupElem l u := by
  induction tD generalizing l with
  | nil => simp [deletePhase]
  | cons w rest ih =>
    rw [deletePhase_cons]
    have hw : u ≠ w := fun hh => h (hh ▸ List.mem_cons_self w rest)
    rw [ih (removeElem l w) (fun hh => h (List.mem_cons_of_mem w hh))]
    exact lookup_remove_other l w u hw

theorem updatePhase_cons (d : Disk) (l : List (Uuid × Element)) (w : Uuid)
    (rest : List Uuid) :
    updatePhase d l (w :: rest) =
      updatePhase d
        (match disk.read d w with
         | Except.ok e => insertElem l w e
         | Except.error _ => l) rest := by
  simp [updatePhase, List.foldl_cons]

theorem updatePhase_lookup_stable (tU : List Uuid) (d : Disk)
    (l : List (Uuid × Element)) (u : Uuid) (e : Element)
    (hr : disk.read d u = Except.ok e) (h : lookupElem l u = some e) :
    lookupElem (updatePhase d l tU) u = some e := by
  induction tU generalizing l with
  | nil => simpa [updatePhase] using h
  | cons w rest ih =>
    rw [updatePhase_cons]
    by_cases hw : w = u
    · subst hw
      rw [hr]
      exact ih (insertElem l w e) (lookup_insert_self l w e)
    · cases hrw : disk.read d w with
      | ok e2 =>
        exact ih (insertElem l w e2)
          ((lookup_insert_other l w u e2 (fun hh => hw hh.symm)).trans h)
      | error err => exact ih l h

theorem updatePhase_lookup_mem (tU : List Uuid) (d : Disk)
    (l : List (Uuid × Element)) (u : Uuid) (e : Element)
    (hmem : u ∈ tU) (hr : disk.read d u = Except.ok e) :
    lookupElem (updatePhase d l tU) u = some e := by
  induction tU generalizing l with
  | nil => cases hmem
  | cons w rest ih =>
    rw [updatePhase_cons]
    by_cases hw : w = u
    · subst hw
      rw [hr]
      exact updatePhase_lookup_stable rest d (insertElem l w e) w e hr
        (lookup_insert_self l w e)
    · have hmem2 : u ∈ rest :=
        (List.mem_cons.mp hmem).resolve_left (fun hh => hw hh.symm)
      cases hrw : disk.read d w with
      | ok e2 => exact ih (insertElem l w e2) hmem2
      | error err => exact ih l hmem2

theorem updatePhase_lookup_err (tU : List Uuid) (d : Disk)
    (l : List (Uuid × Element)) (u : Uuid) (err : ReadError)
    (hr : disk.read d u = Except.error err) :
    lookupElem (updatePhase d l tU) u = lookupElem l u := by
  induction tU generalizing l with
  | nil => simp [updatePhase]
  | cons w rest ih =>
    rw [updatePhase_cons]
    by_cases hw : w = u
    · subst hw
      rw [hr]
      exact ih l
    · cases hrw : disk.read d w with
      | ok e2 =>
        rw [ih (insertElem l w e2)]
        exact lookup_insert_other l w u e2 (fun hh => hw hh.symm)
      | error e2 => exact ih l

/-- Sample directory metadata used by concrete instances. -/
def metaDirA : Metadata :=
  { kind := ElementType.Directory, name := "A", parent := Parent.Root, pinned := false }

/-- The element `disk::read` produces from `metaDirA`. -/
def elemDirA : Element :=
  { name := "A", parent := Parent.Root, pinned := false, kind := ElementKind.Directory }

/-- Sample document metadata used by concrete instances. -/
def metaDocB : Metadata :=
  { kind := ElementType.Document, name := "B", parent := Parent.Root, pinned := false }

/-- A sample element sitting in the trash. -/
def elemB : Element :=
  { name := "B", parent := Parent.Trash, pinned := false, kind := ElementKind.Directory }

/-- C2: an identifier queued in both `toDelete` and `toUpdate` during one
debounce window is first removed from the index by the delete phase; the
update phase then re-reads it from disk and inserts it, so that after the
flush the item is present in the index with the freshly read value, given
the disk read succeeds. -/
theorem flush_delete_then_update (fs : Filesystem) (d : Disk)
    (toDelete toUpdate : List Uuid) (u : Uuid) (e : Element)
    (hdel : u ∈ toDelete) (hupd : u ∈ toUpdate)
    (hread : disk.read d u = Except.ok e) :
    lookupElem (deletePhase fs.elements toDelete) u = none ∧
    lookupElem (fs.auto_reindex_flush d toDelete toUpdate).elements u = some e := by
  constructor
  · exact deletePhase_lookup_mem toDelete fs.elements u hdel
  · exact updatePhase_lookup_mem toUpdate d (deletePhase fs.elements toDelete)
      u e hupd hread

def d2 : Disk :=
  { dirEntries := none,
    metadataFile := fun _ => some (some metaDirA),
    contentFile := fun _ => none }

def fs2 : Filesystem := { elements := [(9, elemDirA)], isFile := fun _ => false }

/-- C2 witness: a concrete flush whose pending sets both contain
identifier 9 and whose disk read of 9 succeeds. -/
theorem flush_delete_then_update_witness :
    lookupElem (deletePhase fs2.elements [9]) 9 = none ∧
    lookupElem (fs2.auto_reindex_flush d2 [9] [9]).elements 9 = some elemDirA :=
  flush_delete_then_update fs2 d2 [9] [9] 9 elemDirA (by decide) (by decide) rfl

def fs5 : Filesystem := { elements := [(7, elemB)], isFile := fun _ => false }

def d5 : Disk :=
  { dirEntries := none, metadataFile := fun _ => none, contentFile := fun _ => none }

/-- C5 counterexample: identifier 7 is in `toUpdate` and its re-read fails,
yet the flush does not leave its index entry as it was before the flush:
7 is also in `toDelete`, so the delete phase removes it and the failed
update never restores it — the entry goes from `some elemB` to `none`. -/
theorem flush_failed_update_counterexample :
    7 ∈ ([7] : List Uuid) ∧
    disk.read d5 7 = Except.error ReadError.notFound ∧
    lookupElem fs5.elements 7 = some elemB ∧
    lookupElem (fs5.auto_reindex_flush d5 [7] [7]).elements 7 = none :=
  ⟨by decide, rfl, rfl, rfl⟩

/-- C5 (amended): for every identifier in `toUpdate` that is not also in
`toDelete` and whose re-read from disk fails, the flush leaves that
identifier's index entry exactly as it was before the flush, and the
failure does not affect any other identifier's successful update. -/
theorem flush_failed_update_preserves (fs : Filesystem) (d : Disk)
    (toDelete toUpdate : List Uuid) (u : Uuid) (err : ReadError)
    (hupd : u ∈ toUpdate) (hndel : u ∉ toDelete)
    (hread : disk.read d u = Except.error err) :
    lookupElem (fs.auto_reindex_flush d toDelete toUpdate).elements u =
      lookupElem fs.elements u ∧
    (∀ v e, v ∈ toUpdate → disk.read d v = Except.ok e →
      lookupElem (fs.auto_reindex_flush d toDelete toUpdate).elements v = some e) := by
  constructor
  · show lookupElem (updatePhase d (deletePhase fs.elements toDelete) toUpdate) u = _
    rw [updatePhase_lookup_err toUpdate d _ u err hread]
    exact deletePhase_lookup_not_mem toDelete fs.elements u hndel
  · intro v e hv hr
    exact updatePhase_lookup_mem toUpdate d (deletePhase fs.elements toDelete)
      v e hv hr

def d5w : Disk :=
  { dirEntries := none,
    metadataFile := fun u => if u = 8 then some (some metaDirA) else none,
    contentFile := fun _ => none }

def fs5w : Filesystem := { elements := [(7, elemB)], isFile := fun _ => false }

/-- C5 witness: identifier 7 is queued only for update, its read fails, and
its entry survives the flush unchanged. -/
theorem flush_failed_update_preserves_witness :
    lookupElem (fs5w.auto_reindex_flush d5w [] [7, 8]).elements 7 =
      lookupElem fs5w.elements 7 :=
  (flush_failed_update_preserves fs5w d5w [] [7, 8] 7 ReadError.notFound
    (by decide) (by decide) rfl).1

/-- C10: when enumerating the base directory fails at the start of a
rebuild, `index` returns immediately and the whole filesystem state — in
particular the element index — is exactly as it was before the call; the
index is cleared only on the enumeration-success path. -/
theorem index_enumeration_failure_preserves (fs : Filesystem) (d : Disk)
    (h : d.dirEntries = none) : fs.index d = fs := by
  simp [Filesystem.index, h]

def d10 : Disk :=
  { dirEntries := none, metadataFile := fun _ => none, contentFile := fun _ => none }

def fs10 : Filesystem := { elements := [(3, elemB)], isFile := fun _ => false }

/-- C10 witness: a concrete failed enumeration leaves a non-empty index
intact. -/
theorem index_enumeration_failure_preserves_witness : fs10.index d10 = fs10 :=
  index_enumeration_failure_preserves fs10 d10 rfl

/-- C4: rebuild is idempotent — against a disk whose contents do not change
between the calls, running `index` twice produces exactly the index
contents that running it once produces (the rebuilt contents are a function
of the disk alone, since the index is cleared before reinsertion). -/
theorem index_idempotent (fs : Filesystem) (d : Disk) :
    ((fs.index d).index d).elements = (fs.index d).elements := by
  cases h : d.dirEntries with
  | none => simp [Filesystem.index, h]
  | some entries => simp [Filesystem.index, h]

/-- C7: `disk::read` fails with the not-found error when the metadata
sidecar is absent; when the metadata declares a Document it additionally
fails with the not-found error when the content sidecar is absent; when the
metadata declares a Directory it succeeds without consulting the content
sidecar at all. -/
theorem read_sidecar_requirements (d : Disk) (u : Uuid) :
    (d.metadataFile u = none →
      disk.read d u = Except.error ReadError.notFound) ∧
    (∀ m, d.metadataFile u = some (some m) → m.kind = ElementType.Document →
      d.contentFile u = none →
      disk.read d u = Except.error ReadError.notFound) ∧
    (∀ m, d.metadataFile u = some (some m) → m.kind = ElementType.Directory →
      disk.read d u =
        Except.ok ⟨m.name, m.parent, m.pinned, ElementKind.Directory⟩) := by
  refine ⟨?_, ?_, ?_⟩
  · intro h
    simp [disk.read, Metadata.from_disk, h]
  · intro m hm hk hc
    simp [disk.read, Metadata.from_disk, hm, hk, Content.from_disk, hc]
  · intro m hm hk
    simp [disk.read, Metadata.from_disk, hm, hk]

def d7 : Disk :=
  { dirEntries := none,
    metadataFile := fun u =>
      if u = 2 then some (some metaDocB)
      else if u = 3 then some (some metaDirA) else none,
    contentFile := fun _ => none }

/-- C7 witness: with no content sidecars on disk, reading an absent
metadata errors, reading a Document errors on the missing content sidecar,
and reading a Directory succeeds. -/
theorem read_sidecar_requirements_witness :
    disk.read d7 1 = Except.error ReadError.notFound ∧
    disk.read d7 2 = Except.error ReadError.notFound ∧
    disk.read d7 3 = Except.ok elemDirA :=
  ⟨(read_sidecar_requirements d7 1).1 rfl,
   (read_sidecar_requirements d7 2).2.1 metaDocB rfl rfl rfl,
   (read_sidecar_requirements d7 3).2.2 metaDirA rfl rfl⟩

theorem mem_filterRoot_iff (l : List (Uuid × Element)) (e : Element) :
    e ∈ (l.filter (fun p => decide (p.2.parent = Parent.Root))).map (·.2) ↔
      ∃ u, (u, e) ∈ l ∧ e.parent = Parent.Root := by
  constructor
  · intro he
    rcases List.mem_map.mp he with ⟨p, hpmem, hpe⟩
    rcases List.mem_filter.mp hpmem with ⟨hmem, hdec⟩
    rcases p with ⟨u, v⟩
    cases hpe
    exact ⟨u, hmem, of_decide_eq_true hdec⟩
  · rintro ⟨u, hmem, hpar⟩
    exact List.mem_map.mpr
      ⟨(u, e), List.mem_filter.mpr ⟨hmem, decide_eq_true hpar⟩, rfl⟩

/-- C3: for every index state and every root path (a path with no parent
segment), both `Filesystem::list` and `Remarkable::list` return exactly the
items whose parent is Root — every Root-parented item is included and no
item with any other parent value is included. -/
theorem list_root_exact (fs : Filesystem) (path : List String)
    (hroot : Path.parent path = none) (hfile : fs.isFile path = false) :
    (∀ e, e ∈ fs.list path ↔ ∃ u, (u, e) ∈ fs.elements ∧ e.parent = Parent.Root) ∧
    (∃ l, Remarkable.list fs path = Except.ok l ∧
      ∀ e, e ∈ l ↔ ∃ u, (u, e) ∈ fs.elements ∧ e.parent = Parent.Root) := by
  have h1 : fs.list path =
      (fs.elements.filter (fun p => decide (p.2.parent = Parent.Root))).map (·.2) := by
    simp [Filesystem.list, hfile, hroot]
  have h2 : Remarkable.list fs path = Except.ok
      ((fs.elements.filter (fun p => decide (p.2.parent = Parent.Root))).map (·.2)) := by
    simp [Remarkable.list, hfile, hroot]
  refine ⟨fun e => ?_, ⟨_, h2, fun e => mem_filterRoot_iff fs.elements e⟩⟩
  rw [h1]
  exact mem_filterRoot_iff fs.elements e

def fs3 : Filesystem :=
  { elements := [(1, elemDirA), (2, elemB)], isFile := fun _ => false }

/-- C3 witness: in a concrete index holding one Root item and one Trash
item, the Root item is listed at the root path. -/
theorem list_root_exact_witness : elemDirA ∈ fs3.list [] :=
  ((list_root_exact fs3 [] rfl rfl).1 elemDirA).mpr ⟨1, by decide, rfl⟩

/-- A pinned document whose parent is a directory, exercising the
cross-cutting pinned view. -/
def elemPinned : Element :=
  { name := "P", parent := Parent.Directory 42, pinned := true,
    kind := ElementKind.Document { format := Format.Pdf } }

theorem mem_filterPinned_iff (l : List (Uuid × Element)) (e : Element) :
    e ∈ (l.filter (fun p => p.2.pinned)).map (·.2) ↔
      ∃ u, (u, e) ∈ l ∧ e.pinned = true := by
  constructor
  · intro he
    rcases List.mem_map.mp he with ⟨p, hpmem, hpe⟩
    rcases List.mem_filter.mp hpmem with ⟨hmem, hdec⟩
    rcases p with ⟨u, v⟩
    cases hpe
    exact ⟨u, hmem, hdec⟩
  · rintro ⟨u, hmem, hpar⟩
    exact List.mem_map.mpr ⟨(u, e), List.mem_filter.mpr ⟨hmem, hpar⟩, rfl⟩

/-- C9: for every index state, listing the reserved pinned path name
returns exactly the items whose pinned flag is true, regardless of each
item's parent value, and the `pinned()` convenience accessor returns the
same collection. -/
theorem list_pinned_exact (fs : Filesystem)
    (hfile : fs.isFile [PINNED_DIRECTORY] = false) :
    (∀ e, e ∈ fs.list [PINNED_DIRECTORY] ↔
      ∃ u, (u, e) ∈ fs.elements ∧ e.pinned = true) ∧
    Remarkable.pinned fs = fs.list [PINNED_DIRECTORY] := by
  have h1 : fs.list [PINNED_DIRECTORY] =
      (fs.elements.filter (fun p => p.2.pinned)).map (·.2) := by
    rw [Filesystem.list]
    rw [if_neg (by simp [hfile])]
    rw [if_neg (by simp [Path.parent])]
    rw [if_neg (by decide)]
    rw [if_pos rfl]
  constructor
  · intro e
    rw [h1]
    exact mem_filterPinned_iff fs.elements e
  · rw [h1]
    rfl

def fs9 : Filesystem :=
  { elements := [(1, elemPinned), (2, elemB)], isFile := fun _ => false }

/-- C9 witness: on a concrete index, the accessor and the reserved-path
listing agree. -/
theorem list_pinned_exact_witness :
    Remarkable.pinned fs9 = fs9.list [PINNED_DIRECTORY] :=
  (list_pinned_exact fs9 rfl).2

/-- C6: for every index state and path, when zero indexed items carry the
path's final segment as display name the resolver returns nothing; when
exactly one does, the resolver returns that candidate's identifier
directly — the statement has no parent-chain hypothesis at all, so the
single candidate is returned even when the path's parent segments do not
match its actual parent chain. -/
theorem uuid_from_path_candidates (fs : Filesystem) (path : List String)
    (nm : String) (hlast : path.getLast? = some nm) :
    ((fs.elements.filter (fun p => decide (p.2.name = nm))) = [] →
      fs.uuid_from_path path = none) ∧
    (∀ u e, (fs.elements.filter (fun p => decide (p.2.name = nm))) = [(u, e)] →
      fs.uuid_from_path path = some (u, e)) := by
  constructor
  · intro h
    simp [Filesystem.uuid_from_path, hlast, h]
  · intro u e h
    simp [Filesystem.uuid_from_path, hlast, h]

/-- An element whose display name is "doc" but whose parent directory 99 is
not in the index: any path of the form X/doc mismatches its parent chain. -/
def elemMismatch : Element :=
  { name := "doc", parent := Parent.Directory 99, pinned := false,
    kind := ElementKind.Directory }

def fs6 : Filesystem := { elements := [(1, elemMismatch)], isFile := fun _ => false }

/-- C6 witness: the unique candidate "doc" is returned for path X/doc even
though its recorded parent (directory 99) is absent from the index, so no
parent chain could match. -/
theorem uuid_from_path_candidates_witness :
    fs6.uuid_from_path ["X", "doc"] = some (1, elemMismatch) :=
  (uuid_from_path_candidates fs6 ["X", "doc"] "doc" rfl).2 1 elemMismatch (by decide)

theorem setParentField_keys (l : List (String × JVal)) (p : JVal) :
    (setParentField l p).map (·.1) = l.map (·.1) := by
  induction l with
  | nil => simp [setParentField]
  | cons f rest ih =>
    by_cases h : f.1 = "parent"
    · simp [setParentField, h]
    · simp [setParentField, h, ih]

theorem setParentField_frame (l : List (String × JVal)) (p : JVal) :
    (setParentField l p).filter (fun f => decide (f.1 ≠ "parent")) =
      l.filter (fun f => decide (f.1 ≠ "parent")) := by
  induction l with
  | nil => simp [setParentField]
  | cons f rest ih =>
    by_cases h : f.1 = "parent"
    · simp [setParentField, h]
    · simp at ih
      simp [setParentField, h, ih]

/-- C8: the JSON rewrite of `change_parent` differs from the original
object only at the parent field: the key sequence is preserved (no field
added or removed), and the subsequence of entries whose key is not
"parent" is untouched, value for value. -/
theorem change_parent_frame (metadataJson : List (String × JVal)) (parent : Parent) :
    (change_parent metadataJson parent).map (·.1) = metadataJson.map (·.1) ∧
    (change_parent metadataJson parent).filter (fun f => decide (f.1 ≠ "parent")) =
      metadataJson.filter (fun f => decide (f.1 ≠ "parent")) :=
  ⟨setParentField_keys metadataJson (Parent.toJson parent),
   setParentField_frame metadataJson (Parent.toJson parent)⟩

def fs1 : Filesystem := { elements := [], isFile := fun _ => false }

/-- An element whose parent is Trash, paired below with a path whose parent
segment is "a", not the reserved trash name: that combination is outside
the three documented verification cases. -/
def elemTrashParent : Element :=
  { name := "b", parent := Parent.Trash, pinned := false,
    kind := ElementKind.Directory }

/-- C1: at the concrete pair (path "a/b", element with parent Trash) — a
combination outside the three documented cases, since the path's parent
segment "a" is not the reserved trash name — `path_matches` returns true.
The claim, the source's own fallback comment ("if all else, false") and the
spec's design note all require false here; the code's fallback arm returns
true, contradicting its own documentation. -/
theorem path_matches_fallback_returns_true :
    fs1.path_matches ["a", "b"] elemTrashParent = true := by
  unfold Filesystem.path_matches
  split <;> simp_all [Path.parent, elemTrashParent]
